import Mathlib

/-!
Verification of the chessbeast engine-service core against its specification.

The development shallowly embeds the Python sources:

* `src/services/stockfish16/src/stockfish16_service/eval_parser.py`
  (`parse_eval_output`, `_parse_float`, the `EVAL_ROW_PATTERN` regex and
  `TERM_FIELD_MAP`),
* `src/services/stockfish16/src/stockfish16_service/engine.py`
  (`Stockfish16Engine._read_eval_output`),
* `src/services/stockfish/src/stockfish_service/engine.py`
  (`StockfishEngine.evaluate`, `StockfishEngine._parse_info`,
  `StockfishEngine.new_game`, the module-local exception classes),
* `src/services/stockfish/src/stockfish_service/pool.py`
  (`EnginePool.start`, `acquire`, `release`, `_restart_engine`,
  `_cleanup_engines`).

Modelling conventions:

* Python text lines are `List Char`.  The numeric cells of the eval table
  are short decimal literals (`[\+\-]?\d+\.\d+`); their float values are
  modelled exactly as decimals `num * 10 ^ (-exp)` (structure `Dec`), with
  `Dec.toRat` giving the rational value, and Python `int(x)` is truncation
  toward zero (proved against the `ℚ`-level formula below).
* The external Stockfish process is an oracle: `evaluate` takes the list of
  info dictionaries that `chess.engine.SimpleEngine.analyse` returns, and
  the pool operations take oracles for the success of `engine.start()`
  attempts and fresh spawns.
* Python exceptions are a closed inductive type recording the *class* of
  the raised exception; an `except C` clause catches a raised exception
  exactly when its class is `C` or a subclass of `C`.  This matters:
  `pool.py` line 18 imports `EngineError` from the `common` package
  (`common/exceptions.py` line 20, a subclass of `ChessBeastError`) while
  `stockfish_service/engine.py` line 25 defines its own `EngineError`
  directly under `Exception`; the two classes are unrelated, so the
  `except EngineError` in `EnginePool.release` does not catch the
  `EngineError` that `StockfishEngine.new_game` raises.
-/

/-! ### Character-level helpers (Python `str` / `re` semantics) -/

/-- `\w` of Python `re` on the ASCII data appearing in eval tables:
letters, digits and underscore. -/
def isWordChar (c : Char) : Bool := c.isAlphanum || c = '_'

/-- `\s` of Python `re`: ASCII whitespace. -/
def isSpaceChar (c : Char) : Bool :=
  c = ' ' || c = '\t' || c = '\n' || c = '\r' || c = '\x0b' || c = '\x0c'

/-- Does `hay` start with `pat`? (`str.startswith`). -/
def seqStarts : List Char → List Char → Bool
  | _, [] => true
  | [], _ :: _ => false
  | h :: hs, p :: ps => h = p && seqStarts hs ps

/-- Does `hay` contain `pat` as a contiguous substring? (Python `pat in hay`). -/
def seqContains : List Char → List Char → Bool
  | [], pat => pat.isEmpty
  | h :: hs, pat => seqStarts (h :: hs) pat || seqContains hs pat

/-- `str.strip()` restricted to whitespace. -/
def trimWs (cs : List Char) : List Char :=
  ((cs.dropWhile isSpaceChar).reverse.dropWhile isSpaceChar).reverse

def digitsToNat (ds : List Char) : ℕ :=
  ds.foldl (fun a c => a * 10 + (c.toNat - '0'.toNat)) 0

/-! ### Exact decimals

`Dec` is the value of a decimal literal with `exp` fraction digits:
`num * 10 ^ (-exp)`.  All floats handled by `eval_parser.py` arise from such
literals (or from `_parse_float`'s default `0.0`), so this models them
exactly. -/

structure Dec where
  num : ℤ
  exp : ℕ
  deriving DecidableEq, Repr

def Dec.zero : Dec := ⟨0, 0⟩

def Dec.toRat (d : Dec) : ℚ := (d.num : ℚ) / (10 : ℚ) ^ d.exp

/-- Python float `x != 0.0` on a decimal value. -/
def Dec.isZero (d : Dec) : Bool := d.num = 0

/-- Scan `[\+\-]?\d+\.\d+` at the head of `cs`, returning the exact value of
the decimal literal and the rest of the input.  This is the number
alternative of `EVAL_ROW_PATTERN` (eval_parser.py lines 33-38); its value is
what Python `float()` returns inside `_parse_float`. -/
def scanNum (cs : List Char) : Option (Dec × List Char) :=
  let (neg, cs1) :=
    match cs with
    | '+' :: t => (false, t)
    | '-' :: t => (true, t)
    | t => (false, t)
  let (ds, cs2) := cs1.span (fun c => c.isDigit)
  if ds.isEmpty then none
  else
    match cs2 with
    | '.' :: cs3 =>
      let (fs, cs4) := cs3.span (fun c => c.isDigit)
      if fs.isEmpty then none
      else
        let m : ℤ := (digitsToNat (ds ++ fs) : ℤ)
        some (⟨if neg then -m else m, fs.length⟩, cs4)
    | _ => none

def skipWs (cs : List Char) : List Char := cs.dropWhile isSpaceChar

/-- Match `\s*(num)?\s*(num)?\s*` against the *whole* segment `cs` (the
white and black columns of `EVAL_ROW_PATTERN`, each followed by a literal
`\|`).  Returns the two optional captured numbers, or `none` when the regex
cannot consume the segment. -/
def scanCellFull (cs : List Char) : Option (Option Dec × Option Dec) :=
  let cs1 := skipWs cs
  match scanNum cs1 with
  | some (v1, r1) =>
    let r2 := skipWs r1
    match scanNum r2 with
    | some (v2, r3) => if (skipWs r3).isEmpty then some (some v1, some v2) else none
    | none => if r2.isEmpty then some (some v1, none) else none
  | none => if cs1.isEmpty then some (none, none) else none

/-- Match `\s*(num)?\s*(num)?` at the head of `cs`, ignoring the rest (the
total column of `EVAL_ROW_PATTERN`, which ends the pattern). -/
def scanCellLead (cs : List Char) : Option Dec × Option Dec :=
  match scanNum (skipWs cs) with
  | some (v1, r1) =>
    match scanNum (skipWs r1) with
    | some (v2, _) => (some v1, some v2)
    | none => (some v1, none)
  | none => (none, none)

/-- Split a line at its first three `|` characters: term segment, white
segment, black segment, and everything after the third bar. -/
def splitPipes3 (cs : List Char) : Option (List Char × List Char × List Char × List Char) :=
  let (s0, r0) := cs.span (fun c => c ≠ '|')
  match r0 with
  | [] => none
  | _ :: r0t =>
    let (s1, r1) := r0t.span (fun c => c ≠ '|')
    match r1 with
    | [] => none
    | _ :: r1t =>
      let (s2, r2) := r1t.span (fun c => c ≠ '|')
      match r2 with
      | [] => none
      | _ :: r2t => some (s0, s1, s2, r2t)

/-- The `(\w[\w\s]*?)` term group: after trimming, the segment must be
nonempty, start with a word character, and contain only word characters and
whitespace. -/
def termOk (t : List Char) : Bool :=
  match t with
  | [] => false
  | c :: rest => isWordChar c && rest.all (fun x => isWordChar x || isSpaceChar x)

/-! ### `eval_parser.py` -/

structure PhaseScore where
  mg : Dec := Dec.zero
  eg : Dec := Dec.zero
  deriving DecidableEq, Repr

structure SideBreakdown where
  white : PhaseScore := {}
  black : PhaseScore := {}
  total : PhaseScore := {}
  deriving DecidableEq, Repr

structure ClassicalEvalResult where
  material : SideBreakdown := {}
  imbalance : SideBreakdown := {}
  pawns : SideBreakdown := {}
  knights : SideBreakdown := {}
  bishops : SideBreakdown := {}
  rooks : SideBreakdown := {}
  queens : SideBreakdown := {}
  mobility : SideBreakdown := {}
  king_safety : SideBreakdown := {}
  threats : SideBreakdown := {}
  passed : SideBreakdown := {}
  space : SideBreakdown := {}
  winnable : SideBreakdown := {}
  total : SideBreakdown := {}
  final_eval_cp : ℤ := 0
  deriving DecidableEq, Repr

/-- A successful match of `EVAL_ROW_PATTERN` against one line: the lowered
term name, and the six cells after `_parse_float` (an absent capture group
defaults to `0.0`). -/
structure EvalRow where
  term : List Char
  wmg : Dec
  weg : Dec
  bmg : Dec
  beg : Dec
  tmg : Dec
  teg : Dec
  deriving DecidableEq, Repr

/-- `_parse_float` (eval_parser.py lines 115-122): a missing capture group
parses to `0.0`.  A present group is a well-formed decimal literal by the
shape of the regex, so the `ValueError` fallback is dead for matched rows. -/
def parse_float (v : Option Dec) : Dec := v.getD Dec.zero

/-- One line against `EVAL_ROW_PATTERN` plus `_parse_float` on each group. -/
def rowMatch (line : List Char) : Option EvalRow :=
  match splitPipes3 line with
  | none => none
  | some (s0, s1, s2, s3) =>
    let t := trimWs s0
    if termOk t then
      match scanCellFull s1, scanCellFull s2 with
      | some (w1, w2), some (b1, b2) =>
        let (t1, t2) := scanCellLead s3
        some { term := t.map Char.toLower
               wmg := parse_float w1, weg := parse_float w2
               bmg := parse_float b1, beg := parse_float b2
               tmg := parse_float t1, teg := parse_float t2 }
      | _, _ => none
    else none

def kwSep : List Char := "---".toList

def kwTermHdr : List Char := "Term".toList

def kwMG : List Char := "MG".toList

def kwWhite : List Char := "White".toList

def kwBlack : List Char := "Black".toList

def kwTotalRow : List Char := "Total".toList

def kwMaterial : List Char := "material".toList

def kwImbalance : List Char := "imbalance".toList

def kwPawns : List Char := "pawns".toList

def kwKnights : List Char := "knights".toList

def kwBishops : List Char := "bishops".toList

def kwRooks : List Char := "rooks".toList

def kwQueens : List Char := "queens".toList

def kwMobility : List Char := "mobility".toList

def kwKingSafety : List Char := "king safety".toList

def kwThreats : List Char := "threats".toList

def kwPassed : List Char := "passed".toList

def kwSpace : List Char := "space".toList

def kwWinnable : List Char := "winnable".toList

def kwTotalTerm : List Char := "total".toList

/-- The `SideBreakdown(...)` value built for a matched row
(eval_parser.py lines 95-100). -/
def termBreakdown (row : EvalRow) : SideBreakdown :=
  { white := { mg := row.wmg, eg := row.weg }
    black := { mg := row.bmg, eg := row.beg }
    total := { mg := row.tmg, eg := row.teg } }

/-- The fourteen fields a recognised term can name. -/
inductive EvalTerm where
  | material | imbalance | pawns | knights | bishops | rooks | queens
  | mobility | kingSafety | threats | passed | space | winnable | total
  deriving DecidableEq, Repr

/-- `TERM_FIELD_MAP.get(term)` (eval_parser.py lines 41-56, 81): the lowered
term name against the fixed vocabulary, `none` for unknown terms. -/
def termField (t : List Char) : Option EvalTerm :=
  if t = kwMaterial then some .material
  else if t = kwImbalance then some .imbalance
  else if t = kwPawns then some .pawns
  else if t = kwKnights then some .knights
  else if t = kwBishops then some .bishops
  else if t = kwRooks then some .rooks
  else if t = kwQueens then some .queens
  else if t = kwMobility then some .mobility
  else if t = kwKingSafety then some .kingSafety
  else if t = kwThreats then some .threats
  else if t = kwPassed then some .passed
  else if t = kwSpace then some .space
  else if t = kwWinnable then some .winnable
  else if t = kwTotalTerm then some .total
  else none

/-- The `setattr(result, field_name, breakdown)` call dispatched on the
mapped field (eval_parser.py lines 83-103); unknown terms leave the result
unchanged. -/
def applyTerm (r : ClassicalEvalResult) (row : EvalRow) : ClassicalEvalResult :=
  match termField row.term with
  | none => r
  | some .material => { r with material := termBreakdown row }
  | some .imbalance => { r with imbalance := termBreakdown row }
  | some .pawns => { r with pawns := termBreakdown row }
  | some .knights => { r with knights := termBreakdown row }
  | some .bishops => { r with bishops := termBreakdown row }
  | some .rooks => { r with rooks := termBreakdown row }
  | some .queens => { r with queens := termBreakdown row }
  | some .mobility => { r with mobility := termBreakdown row }
  | some .kingSafety => { r with king_safety := termBreakdown row }
  | some .threats => { r with threats := termBreakdown row }
  | some .passed => { r with passed := termBreakdown row }
  | some .space => { r with space := termBreakdown row }
  | some .winnable => { r with winnable := termBreakdown row }
  | some .total => { r with total := termBreakdown row }

/-- Truncation of `A / B` toward zero for a positive natural divisor:
the value of Python `int()` on the quotient. -/
def truncDivNat (A : ℤ) (B : ℕ) : ℤ :=
  if A < 0 then -(((-A).toNat / B : ℕ) : ℤ) else ((A.toNat / B : ℕ) : ℤ)

/-- Python `int(((mg + eg) / 2) * 100)` on two exact decimals: the common
numerator is `A = mg.num * 10 ^ eg.exp + eg.num * 10 ^ mg.exp` over the
denominator `10 ^ (mg.exp + eg.exp)`, so the expression is
`A * 100 / (2 * 10 ^ (mg.exp + eg.exp))` truncated toward zero
(eval_parser.py lines 105-110). -/
def pyIntAvg (mg eg : Dec) : ℤ :=
  truncDivNat ((mg.num * (10 : ℤ) ^ eg.exp + eg.num * (10 : ℤ) ^ mg.exp) * 100)
    (2 * 10 ^ (mg.exp + eg.exp))

/-- The per-line step of the parser loop: skip header and separator
decoration, skip non-matching and unknown-term lines, otherwise update the
named field (eval_parser.py lines 71-103). -/
def parseStep (r : ClassicalEvalResult) (line : List Char) : ClassicalEvalResult :=
  if seqContains line kwSep || seqContains line kwTermHdr || seqContains line kwMG then r
  else
    match rowMatch line with
    | none => r
    | some row => applyTerm r row

/-- The final-eval computation after the loop (eval_parser.py lines
105-110): only run when the total row carries a nonzero component. -/
def finalizeEval (r : ClassicalEvalResult) : ClassicalEvalResult :=
  if ¬ r.total.total.mg.isZero ∨ ¬ r.total.total.eg.isZero then
    { r with final_eval_cp := pyIntAvg r.total.total.mg r.total.total.eg }
  else r

/-- `parse_eval_output` (eval_parser.py lines 59-112). -/
def parse_eval_output (lines : List (List Char)) : ClassicalEvalResult :=
  finalizeEval (lines.foldl parseStep {})

/-! ### `Stockfish16Engine._read_eval_output` (stockfish16 engine.py lines 266-319)

The reader thread consumes stripped lines from the engine's stdout.  A line
containing `Term`, `White` and `Black` switches `in_eval_section` on; once
on, every line is collected, and a collected line starting with `Total`
sets the `done` event and stops.  If the stream ends (EOF `break`) or no
further line arrives (the `readline` blocks and the `join(timeout)`
expires), `done` stays unset.  After the join, the main thread raises the
generic `EngineError` timeout when `done` is unset, and is supposed to
raise `EvalNotAvailableError` when output ended with no collected lines. -/

inductive Sf16ReadErr where
  /-- `EngineError("Timeout waiting for eval output")` -/
  | timeoutWaiting : Sf16ReadErr
  /-- `EvalNotAvailableError("No eval output received. ...")` -/
  | evalNotAvailable : Sf16ReadErr
  deriving DecidableEq, Repr

/-- The `read_output` loop body: returns (`done` was set, collected lines).
The input list is everything the engine process emits on stdout after the
`eval` command; when it is exhausted the thread either hits EOF or blocks
forever on `readline` — in both cases `done` is never set. -/
def readEvalLoop : List (List Char) → Bool → List (List Char) → Bool × List (List Char)
  | [], _, acc => (false, acc)
  | l :: ls, inSec, acc =>
    let inSec' := inSec || (seqContains l kwTermHdr && seqContains l kwWhite && seqContains l kwBlack)
    if inSec' then
      if seqStarts l kwTotalRow then (true, acc ++ [l])
      else readEvalLoop ls inSec' (acc ++ [l])
    else readEvalLoop ls inSec' acc

/-- `_read_eval_output`: the error checks after `thread.join(timeout)`,
in source order (engine.py lines 307-319; the `error` list stays empty in
this model since `readline` on a pipe does not raise). -/
def read_eval_output (ls : List (List Char)) : Except Sf16ReadErr (List (List Char)) :=
  let r := readEvalLoop ls false []
  if r.1 = false then .error .timeoutWaiting
  else if r.2.isEmpty then .error .evalNotAvailable
  else .ok r.2

/-! ### The canonical sample eval table (stockfish16 tests/conftest.py
`SAMPLE_EVAL_OUTPUT`) -/

def sampleLine01 : List Char := "      Term    |    White    |    Black    |    Total".toList

def sampleLine02 : List Char := "              |   MG    EG  |   MG    EG  |   MG    EG".toList

def sampleLine03 : List Char := "------------------------------------------------------".toList

def sampleLine04 : List Char := "    Material |  +4.12 +4.50|  -4.12 -4.50|  +0.00 +0.00".toList

def sampleLine05 : List Char := "   Imbalance |  +0.02 -0.00|  -0.02 +0.00|  +0.00 +0.00".toList

def sampleLine06 : List Char := "     Pawns   |  +0.00 +0.00|  -0.12 -0.08|  -0.12 -0.08".toList

def sampleLine07 : List Char := "     Knights |  -0.15 +0.22|  +0.00 +0.00|  -0.15 +0.22".toList

def sampleLine08 : List Char := "     Bishops |  +0.00 +0.00|  +0.00 +0.00|  +0.00 +0.00".toList

def sampleLine09 : List Char := "       Rooks |  +0.00 +0.00|  +0.00 +0.00|  +0.00 +0.00".toList

def sampleLine10 : List Char := "      Queens |  +0.00 +0.00|  +0.00 +0.00|  +0.00 +0.00".toList

def sampleLine11 : List Char := "    Mobility |  +0.45 +0.31|  -0.00 -0.00|  +0.45 +0.31".toList

def sampleLine12 : List Char := " King safety |  +0.18 -0.04|  +0.00 +0.00|  +0.18 -0.04".toList

def sampleLine13 : List Char := "     Threats |  +0.12 +0.00|  -0.00 -0.00|  +0.12 +0.00".toList

def sampleLine14 : List Char := "      Passed |  +0.00 +0.00|  +0.00 +0.00|  +0.00 +0.00".toList

def sampleLine15 : List Char := "       Space |  +0.08 +0.00|  -0.00 -0.00|  +0.08 +0.00".toList

def sampleLine16 : List Char := "    Winnable |             |             |  +0.00 +0.00".toList

def sampleLine17 : List Char := "------------------------------------------------------".toList

def sampleLine18 : List Char := "       Total |             |             |  +0.56 +0.41".toList

def sampleEvalOutput : List (List Char) :=
  [sampleLine01, sampleLine02, sampleLine03, sampleLine04, sampleLine05, sampleLine06,
   sampleLine07, sampleLine08, sampleLine09, sampleLine10, sampleLine11, sampleLine12,
   sampleLine13, sampleLine14, sampleLine15, sampleLine16, sampleLine17, sampleLine18]

/-! ### Truncation versus rounding -/

/-- Truncation toward zero on `ℚ`: the mathematical content of Python
`int()` applied to a real value. -/
def ratTrunc (q : ℚ) : ℤ := if q < 0 then -⌊-q⌋ else ⌊q⌋

def cexTotalLine : List Char := "Total |   |   |  +0.01 +0.02".toList

def noBreakdownLine : List Char := "Unknown command: eval".toList

/-! ### `StockfishEngine.evaluate` / `_parse_info` (stockfish engine.py)

`chess.engine.SimpleEngine.analyse` returns one `InfoDict` per principal
variation.  Its `score` entry, when present, is a `PovScore`; `_parse_info`
reads `score.white()` or `score.black()` according to the side to move
(engine.py line 257).  We store the score in white-relative form (`WScore`),
so `.white()` is the identity and `.black()` is negation, matching
python-chess (`-Cp(v) = Cp(-v)`, `-Mate(n) = Mate(-n)`). -/

inductive WScore where
  /-- a centipawn score, white-relative -/
  | cp (v : ℤ) : WScore
  /-- a mate-in-`v` score, white-relative -/
  | mate (v : ℤ) : WScore
  deriving DecidableEq, Repr

/-- Negation of a score: the `.black()` view of a white-relative value. -/
def WScore.negS : WScore → WScore
  | .cp v => .cp (-v)
  | .mate v => .mate (-v)

/-- The centipawn component of a raw score (`pov.score() or 0`). -/
def WScore.cpOf : WScore → ℤ
  | .cp v => v
  | .mate _ => 0

/-- The mate component of a raw score (`pov.mate() or 0`). -/
def WScore.mateOf : WScore → ℤ
  | .cp _ => 0
  | .mate v => v

/-- The fields of a python-chess `InfoDict` that `_parse_info` reads:
`score` (absent for some non-scoring info lines), `depth` (`get` default 0)
and `pv` (`get` default `[]`, as UCI move strings). -/
structure InfoDict where
  score : Option WScore := none
  depth : ℕ := 0
  pv : List String := []
  deriving DecidableEq, Repr

/-- `EvaluationResult` (engine.py lines 41-49): `cp`, `mate`, achieved
`depth`, `best_line` as UCI move strings, and MultiPV `alternatives` which are
themselves `EvaluationResult`s. -/
inductive EvaluationResult where
  | mk (cp : ℤ) (mate : ℤ) (depth : ℕ) (best_line : List String)
      (alternatives : List EvaluationResult) : EvaluationResult

def EvaluationResult.cp : EvaluationResult → ℤ
  | .mk c _ _ _ _ => c

def EvaluationResult.mate : EvaluationResult → ℤ
  | .mk _ m _ _ _ => m

def EvaluationResult.depth : EvaluationResult → ℕ
  | .mk _ _ d _ _ => d

def EvaluationResult.best_line : EvaluationResult → List String
  | .mk _ _ _ b _ => b

def EvaluationResult.alternatives : EvaluationResult → List EvaluationResult
  | .mk _ _ _ _ a => a

/-- `primary.alternatives = results[1:]` (engine.py line 229): replace the
alternatives list of a result. -/
def EvaluationResult.withAlts : EvaluationResult → List EvaluationResult → EvaluationResult
  | .mk c m d b _, alts => .mk c m d b alts

/-- `StockfishEngine._parse_info` (engine.py lines 240-275): `None` when the
info carries no score; otherwise the side-to-move view of the score
(`score.white()` when white is to move, `score.black()` otherwise), with
`mate`/`cp` split by `is_mate()`, and a fresh result whose `alternatives`
default to `[]`. -/
def parse_info (whiteToMove : Bool) (info : InfoDict) : Option EvaluationResult :=
  match info.score with
  | none => none
  | some s =>
    match (if whiteToMove then s else s.negS) with
    | .cp v => some (.mk v 0 info.depth info.pv [])
    | .mate v => some (.mk 0 v info.depth info.pv [])

/-- `multipv = max(1, min(multipv, 10))` (engine.py line 211). -/
def clampMultipv (m : ℤ) : ℤ := max 1 (min m 10)

/-- Error classes `evaluate` can raise before/while parsing engine output. -/
inductive EvalErr where
  /-- `EngineError("Engine not started")` -/
  | notStarted : EvalErr
  /-- `InvalidFenError` -/
  | invalidFen : EvalErr
  /-- `EngineError("No evaluation results returned")` -/
  | noResults : EvalErr
  deriving DecidableEq, Repr

/-- `StockfishEngine.evaluate` (engine.py lines 164-231), abstracted over
the engine's response: `analyse` maps the clamped MultiPV request to the
list of info dictionaries the engine reports, in engine order.  The
limit-building lines 198-207 only affect the search and are orthogonal to
the returned structure; FEN validation and the startup check are the two
leading guards. -/
def evaluateWith (started validFen whiteToMove : Bool) (multipv : ℤ)
    (analyse : ℤ → List InfoDict) : Except EvalErr EvaluationResult :=
  if started = false then .error .notStarted
  else if validFen = false then .error .invalidFen
  else
    match (analyse (clampMultipv multipv)).filterMap (parse_info whiteToMove) with
    | [] => .error .noResults
    | r :: rest => .ok (r.withAlts rest)

/-- The number of results `evaluate` hands back: the primary plus its
alternatives, or none on error. -/
def resultCount : Except EvalErr EvaluationResult → ℕ
  | .error _ => 0
  | .ok r => 1 + r.alternatives.length

/-! ### `EnginePool` (stockfish pool.py)

State: the tracked list `self._engines`, the availability queue
`self._available` (FIFO), and the `_started` / `_shutdown` flags.  Engines
are identified by `id` (Python object identity — each engine object occurs
at most once in the tracked list, so id-based update and removal coincide
with Python's identity-based `index`/`remove`).  An engine's `handle`
models `self._engine`: `none` when no process handle is held, `some true`
for a running process, `some false` for an exited one.

Exception classes, with the catching relation taken from the class
hierarchy of the sources:

* `commonEngineError` is `common.exceptions.EngineError` (the class
  `pool.py` imports and catches);
* `localEngineError` / `localStartupError` are
  `stockfish_service.engine.EngineError` / `EngineStartupError`, defined at
  engine.py lines 25-30 directly under `Exception` — *not* subclasses of
  the common `EngineError`;
* `poolShutdownError` / `poolExhaustedError` are the pool lifecycle errors
  imported from `common` (their class bodies are not part of the engine
  hierarchy relevant here).
-/

inductive PyExc where
  | commonEngineError : PyExc
  | poolShutdownError : PyExc
  | poolExhaustedError : PyExc
  | localEngineError : PyExc
  | localStartupError : PyExc
  deriving DecidableEq, Repr

/-- Which exception classes an `except EngineError` clause in `pool.py`
catches, `EngineError` being the one imported from `common` (pool.py line
18): only the common `EngineError` itself among the classes that can reach
it.  The module-local `EngineError`/`EngineStartupError` of `engine.py`
derive from `Exception`, not from `common.EngineError`. -/
def caughtByCommonEngineError : PyExc → Bool
  | .commonEngineError => true
  | _ => false

structure SFEngine where
  id : ℕ
  handle : Option Bool
  deriving DecidableEq, Repr

/-- `StockfishEngine.is_alive` (engine.py lines 91-102): `False` without a
process handle, otherwise whether the transport's return code is `None`. -/
def SFEngine.isAlive (e : SFEngine) : Bool := e.handle = some true

/-- `StockfishEngine.new_game` (engine.py lines 152-162): raises the
module-local `EngineError("Engine not started")` when no process handle is
held; every exception of the `ucinewgame`/`ping` exchange itself is caught
and logged (lines 161-162), whether or not the exchange fails. -/
def newGameErr (e : SFEngine) (protocolFails : Bool) : Option PyExc :=
  if e.handle = none then some .localEngineError
  else
    match protocolFails with
    | true => none
    | false => none

structure PoolState where
  engines : List SFEngine
  avail : List SFEngine
  started : Bool
  shutdown : Bool
  nextId : ℕ
  size : ℕ
  maxRetries : ℕ
  deriving DecidableEq, Repr

/-- In-place mutation of the engine object with identity `i` (its entry in
the tracked list changes with it). -/
def updateHandle (l : List SFEngine) (i : ℕ) (h : Option Bool) : List SFEngine :=
  l.map fun e => if e.id = i then { e with handle := h } else e

/-- `self._engines[idx] = new_engine` at the index of the object with
identity `i` (pool.py lines 283-286); identities are unique in the list. -/
def replaceById (l : List SFEngine) (i : ℕ) (e2 : SFEngine) : List SFEngine :=
  l.map fun e => if e.id = i then e2 else e

/-- `EnginePool._restart_engine` (pool.py lines 256-288): best-effort
`engine.stop()` (clears the handle of the same object), then up to
`max_retries` calls of `engine.start()` — `attempts j` tells whether the
`j`-th one succeeds, all exceptions being caught in the loop — and on full
failure one `_create_engine()` whose success is `spawnOk`; the fresh engine
is swapped into the tracked list in place of the old object when that
object is tracked.  A failing `_create_engine` lets
`EngineStartupError` (the engine-module class) escape. -/
def restart_engine (p : PoolState) (e : SFEngine) (attempts : ℕ → Bool) (spawnOk : Bool) :
    Except PyExc (SFEngine × PoolState) :=
  let p1 : PoolState := { p with engines := updateHandle p.engines e.id none }
  if (List.range p.maxRetries).any attempts then
    .ok ({ e with handle := some true },
      { p1 with engines := updateHandle p1.engines e.id (some true) })
  else if spawnOk then
    .ok (⟨p.nextId, some true⟩,
      { p1 with
          engines := if p1.engines.any (fun x => x.id = e.id)
            then replaceById p1.engines e.id ⟨p.nextId, some true⟩ else p1.engines
          nextId := p.nextId + 1 })
  else
    .error .localStartupError

/-- `EnginePool.acquire` (pool.py lines 173-204), with the queue wait
already resolved: an empty availability queue stands for the timeout
having elapsed (`queue.Empty` → `PoolExhaustedError`). -/
def pool_acquire (p : PoolState) (attempts : ℕ → Bool) (spawnOk : Bool) :
    Except PyExc (SFEngine × PoolState) :=
  if p.shutdown then .error .poolShutdownError
  else if ¬ p.started then .error .poolShutdownError
  else
    match p.avail with
    | [] => .error .poolExhaustedError
    | e :: rest =>
      if e.isAlive then .ok (e, { p with avail := rest })
      else restart_engine { p with avail := rest } e attempts spawnOk

/-- `EnginePool.release` (pool.py lines 206-234).  The first component is
the exception propagating out of `release`, if any.  When `new_game`
raises, the raised class is the *engine-module* `EngineError`, which the
`except EngineError` clause (catching the `common` class) does not match,
so the restart-or-drop handler body is skipped and the exception escapes;
the drop branch removes the object from the tracked list and returns
without requeueing; a successful reset (or handled restart) requeues. -/
def pool_release (p : PoolState) (e : SFEngine) (protocolFails : Bool)
    (attempts : ℕ → Bool) (spawnOk : Bool) : Option PyExc × PoolState :=
  if p.shutdown then
    (none, p)
  else
    match newGameErr e protocolFails with
    | none => (none, { p with avail := p.avail ++ [e] })
    | some exc =>
      if caughtByCommonEngineError exc then
        match restart_engine p e attempts spawnOk with
        | .ok (e2, p2) => (none, { p2 with avail := p2.avail ++ [e2] })
        | .error _ =>
          (none, { p with engines := p.engines.filter (fun x => x.id ≠ e.id) })
      else
        (some exc, p)

/-- `EnginePool._cleanup_engines` (pool.py lines 150-165): stop every
tracked engine best-effort, clear the tracked list, drain the queue.  The
second component is the list of engines whose `stop()` was called. -/
def cleanup_engines (p : PoolState) : PoolState × List SFEngine :=
  ({ p with engines := [], avail := [] }, p.engines)

/-- The spawn loop of `EnginePool.start` (pool.py lines 111-121): `i` is
the next index, the second argument the number of engines still to create;
`spawn i` tells whether `_create_engine()` number `i` succeeds.  On the
first failure the already-started engines are cleaned up and the loop
reports the `common` `EngineError("Failed to initialize pool: ...")`. -/
def start_loop : ℕ → ℕ → PoolState → (ℕ → Bool) → Option PyExc × PoolState × List SFEngine
  | _, 0, p, _ => (none, p, [])
  | i, n + 1, p, spawn =>
    if spawn i then
      start_loop (i + 1) n
        { p with
            engines := p.engines ++ [⟨p.nextId, some true⟩]
            avail := p.avail ++ [⟨p.nextId, some true⟩]
            nextId := p.nextId + 1 } spawn
    else
      (some .commonEngineError, (cleanup_engines p).1, (cleanup_engines p).2)

/-- `EnginePool.start` (pool.py lines 96-127): no-op when already started,
`PoolShutdownError` after shutdown, otherwise the spawn loop; `_started`
becomes true only when every spawn succeeded. -/
def pool_start (p : PoolState) (spawn : ℕ → Bool) : Option PyExc × PoolState × List SFEngine :=
  if p.started then (none, p, [])
  else if p.shutdown then (some .poolShutdownError, p, [])
  else
    match start_loop 0 p.size p spawn with
    | (none, p2, st) => (none, { p2 with started := true }, st)
    | (some exc, p2, st) => (some exc, p2, st)

example : scanNum ("+4.12|x".toList) = some (⟨412, 2⟩, "|x".toList) := by decide

example : rowMatch ("    Material |  +4.12 +4.50|  -4.12 -4.50|  +0.00 +0.00".toList) =
    some { term := kwMaterial, wmg := ⟨412, 2⟩, weg := ⟨450, 2⟩, bmg := ⟨-412, 2⟩,
           beg := ⟨-450, 2⟩, tmg := ⟨0, 2⟩, teg := ⟨0, 2⟩ } := by decide

example : (parse_eval_output sampleEvalOutput).total.total = { mg := ⟨56, 2⟩, eg := ⟨41, 2⟩ } := by
  decide

example : (parse_eval_output sampleEvalOutput).final_eval_cp = 48 := by decide

example : (parse_eval_output sampleEvalOutput).mobility.total = { mg := ⟨45, 2⟩, eg := ⟨31, 2⟩ } := by
  decide

theorem truncDivNat_eq (A : ℤ) (B : ℕ) (hB : 0 < B) :
    truncDivNat A B = ratTrunc ((A : ℚ) / (B : ℚ)) := by
  have hBQ : (0 : ℚ) < (B : ℚ) := by exact_mod_cast hB
  have cast_div : ∀ C : ℤ, 0 ≤ C → ((C.toNat / B : ℕ) : ℤ) = C / (B : ℤ) := by
    intro C hC
    rw [Int.ofNat_ediv]
    congr 1
    exact Int.toNat_of_nonneg hC
  unfold truncDivNat ratTrunc
  by_cases hA : A < 0
  · have hq : (A : ℚ) / (B : ℚ) < 0 :=
      div_neg_of_neg_of_pos (by exact_mod_cast hA) hBQ
    rw [if_pos hA, if_pos hq]
    have hneg : -((A : ℚ) / (B : ℚ)) = ((-A : ℤ) : ℚ) / ((B : ℕ) : ℚ) := by
      push_cast
      ring
    rw [hneg, Rat.floor_intCast_div_natCast, cast_div (-A) (by omega)]
  · have hq : ¬ ((A : ℚ) / (B : ℚ) < 0) :=
      not_lt.mpr (div_nonneg (by exact_mod_cast not_lt.mp hA) hBQ.le)
    rw [if_neg hA, if_neg hq, Rat.floor_intCast_div_natCast, cast_div A (not_lt.mp hA)]

theorem pyIntAvg_eq (a b : Dec) :
    pyIntAvg a b = ratTrunc ((a.toRat + b.toRat) / 2 * 100) := by
  have hB : 0 < 2 * 10 ^ (a.exp + b.exp) := by positivity
  have hd : ((2 * 10 ^ (a.exp + b.exp) : ℕ) : ℚ) ≠ 0 := by positivity
  have key : (((a.num * (10 : ℤ) ^ b.exp + b.num * (10 : ℤ) ^ a.exp) * 100 : ℤ) : ℚ) /
      ((2 * 10 ^ (a.exp + b.exp) : ℕ) : ℚ) = (a.toRat + b.toRat) / 2 * 100 := by
    have h1 : ((10 : ℚ) ^ a.exp) ≠ 0 := by positivity
    have h2 : ((10 : ℚ) ^ b.exp) ≠ 0 := by positivity
    rw [div_eq_iff hd]
    unfold Dec.toRat
    push_cast
    rw [pow_add]
    field_simp
    exact Or.inl (by ring)
  rw [pyIntAvg, truncDivNat_eq _ _ hB, key]

theorem applyTerm_final (r : ClassicalEvalResult) (row : EvalRow) :
    (applyTerm r row).final_eval_cp = r.final_eval_cp := by
  unfold applyTerm
  cases h : termField row.term with
  | none => rfl
  | some f => cases f <;> rfl

theorem parseStep_final (r : ClassicalEvalResult) (l : List Char) :
    (parseStep r l).final_eval_cp = r.final_eval_cp := by
  unfold parseStep
  split_ifs
  · rfl
  · cases rowMatch l with
    | none => rfl
    | some row => exact applyTerm_final r row

theorem foldl_parseStep_final (lines : List (List Char)) (r : ClassicalEvalResult) :
    (lines.foldl parseStep r).final_eval_cp = r.final_eval_cp := by
  induction lines generalizing r with
  | nil => rfl
  | cons l ls ih => rw [List.foldl_cons, ih, parseStep_final]

theorem finalizeEval_final_trunc (r : ClassicalEvalResult) (h : r.final_eval_cp = 0) :
    (finalizeEval r).final_eval_cp =
      ratTrunc (((finalizeEval r).total.total.mg.toRat +
        (finalizeEval r).total.total.eg.toRat) / 2 * 100) := by
  unfold finalizeEval
  split_ifs with hc
  · show pyIntAvg r.total.total.mg r.total.total.eg =
      ratTrunc ((r.total.total.mg.toRat + r.total.total.eg.toRat) / 2 * 100)
    exact pyIntAvg_eq _ _
  · push_neg at hc
    obtain ⟨h1, h2⟩ := hc
    simp only [Bool.not_eq_false, Dec.isZero, decide_eq_true_eq] at h1 h2
    have hz1 : r.total.total.mg.toRat = 0 := by
      unfold Dec.toRat
      rw [h1]
      simp
    have hz2 : r.total.total.eg.toRat = 0 := by
      unfold Dec.toRat
      rw [h2]
      simp
    rw [h, hz1, hz2]
    unfold ratTrunc
    norm_num

/-- Claim C5 (amended): the breakdown parser sets `finalCentipawns` to the
*truncation toward zero* (Python `int`, not `round`) of
`((total.mg + total.eg) / 2) * 100`, computed from the parsed `total` row
only; on the canonical sample table with total `{mg 0.56, eg 0.41}` this
yields 48 (where truncation and rounding agree). -/
theorem parse_eval_output_final_trunc :
    (∀ lines : List (List Char),
      (parse_eval_output lines).final_eval_cp =
        ratTrunc (((parse_eval_output lines).total.total.mg.toRat +
          (parse_eval_output lines).total.total.eg.toRat) / 2 * 100)) ∧
    (parse_eval_output sampleEvalOutput).total.total =
      { mg := ⟨56, 2⟩, eg := ⟨41, 2⟩ } ∧
    (parse_eval_output sampleEvalOutput).final_eval_cp = 48 := by
  refine ⟨?_, by decide, by decide⟩
  intro lines
  unfold parse_eval_output
  exact finalizeEval_final_trunc _ (foldl_parseStep_final _ _)

/-- Claim C5 fails as stated: on the input whose total row is
`{mg 0.01, eg 0.02}` the parsed `finalCentipawns` is `int(1.5) = 1`, while
the claimed formula `round(((total.mg + total.eg) / 2) * 100)` gives 2. -/
theorem parse_eval_output_round_counterexample :
    (parse_eval_output [cexTotalLine]).final_eval_cp ≠
      round (((parse_eval_output [cexTotalLine]).total.total.mg.toRat +
        (parse_eval_output [cexTotalLine]).total.total.eg.toRat) / 2 * 100) := by
  have h1 : (parse_eval_output [cexTotalLine]).final_eval_cp = 1 := by decide
  have h2 : (parse_eval_output [cexTotalLine]).total.total =
      { mg := ⟨1, 2⟩, eg := ⟨2, 2⟩ } := by decide
  rw [h1, h2]
  unfold Dec.toRat
  norm_num [round_eq]

/-! ### Claim C4: unsupported-binary behaviour of `_read_eval_output` -/

theorem readEvalLoop_done_nonempty (ls : List (List Char)) (b : Bool) (acc : List (List Char)) :
    (readEvalLoop ls b acc).1 = true → (readEvalLoop ls b acc).2 ≠ [] := by
  induction ls generalizing b acc with
  | nil => intro h; exact absurd h (by simp [readEvalLoop])
  | cons l t ih =>
    intro h
    unfold readEvalLoop at h ⊢
    by_cases hsec : (b || (seqContains l kwTermHdr && seqContains l kwWhite && seqContains l kwBlack)) = true
    · rw [if_pos hsec] at h ⊢
      by_cases htot : seqStarts l kwTotalRow = true
      · rw [if_pos htot] at h ⊢
        simp
      · rw [if_neg htot] at h ⊢
        exact ih _ _ h
    · rw [if_neg hsec] at h ⊢
      exact ih _ _ h

/-- Claim C4 fails on the code: when the engine emits no breakdown-shaped
output at all (here, one line that is not the eval-table header, then
nothing), `_read_eval_output` raises the generic
`EngineError("Timeout waiting for eval output")`, and its
`EvalNotAvailableError` branch is unreachable for every possible output
stream, because `done` is only ever set right after a line has been
appended to `result`. -/
theorem read_eval_output_unsupported_is_timeout :
    read_eval_output [noBreakdownLine] = .error .timeoutWaiting ∧
    ∀ ls : List (List Char), read_eval_output ls ≠ .error .evalNotAvailable := by
  refine ⟨by rfl, ?_⟩
  intro ls
  unfold read_eval_output
  by_cases h : (readEvalLoop ls false []).1 = true
  · have hne := readEvalLoop_done_nonempty ls false [] h
    rw [if_neg (by simp [h]), if_neg (by simpa using hne)]
    simp
  · rw [if_pos (by simpa using h)]
    simp

theorem resultCount_eq (started validFen whiteToMove : Bool) (m : ℤ)
    (analyse : ℤ → List InfoDict) (hs : started = true) (hv : validFen = true) :
    resultCount (evaluateWith started validFen whiteToMove m analyse) =
      ((analyse (clampMultipv m)).filterMap (parse_info whiteToMove)).length := by
  subst hs hv
  unfold evaluateWith
  simp only [Bool.true_eq_false, if_false]
  cases h : (analyse (clampMultipv m)).filterMap (parse_info whiteToMove) with
  | nil => simp [resultCount]
  | cons r rest =>
    cases r with
    | mk c mt d b a =>
      simp only [resultCount, EvaluationResult.withAlts, EvaluationResult.alternatives,
        List.length_cons]
      omega

theorem parse_info_alts_nil (w : Bool) (i : InfoDict) (r : EvaluationResult)
    (h : parse_info w i = some r) : r.alternatives = [] := by
  unfold parse_info at h
  split at h
  · exact absurd h (by simp)
  · split at h
    · injection h with h
      rw [← h]
      rfl
    · injection h with h
      rw [← h]
      rfl

/-- Claim C3: on a position with no legal moves the engine reports a single
info line of depth 0 with no principal variation and a side-to-move score
of `cp 0` (stalemate) or `mate 0` (checkmate); `evaluate` then returns the
empty result — zero centipawns, zero mate distance, zero depth, empty best
line and no alternatives — rather than raising. -/
theorem evaluate_no_legal_moves_empty (whiteToMove : Bool) (s : WScore) (m : ℤ)
    (analyse : ℤ → List InfoDict)
    (hresp : analyse (clampMultipv m) = [{ score := some s, depth := 0, pv := [] }])
    (hterm : (if whiteToMove then s else s.negS) = .cp 0 ∨
      (if whiteToMove then s else s.negS) = .mate 0) :
    evaluateWith true true whiteToMove m analyse = .ok (.mk 0 0 0 [] []) := by
  unfold evaluateWith
  simp only [Bool.true_eq_false, if_false]
  rw [hresp]
  rcases hterm with h | h <;>
    simp [List.filterMap, parse_info, h, EvaluationResult.withAlts]

theorem evaluate_no_legal_moves_empty_witness :
    evaluateWith true true false 1
      (fun _ => [{ score := some (WScore.mate 0) }]) = .ok (.mk 0 0 0 [] []) :=
  evaluate_no_legal_moves_empty false (WScore.mate 0) 1
    (fun _ => [{ score := some (WScore.mate 0) }]) rfl (Or.inr rfl)

/-- Claim C6: for a successful `evaluate`, the returned centipawn and mate
values are the side-to-move view of the engine's white-relative raw score:
unchanged with white to move, negated with black to move. -/
theorem evaluate_side_to_move_perspective (w : Bool) (s : WScore) (d : ℕ) (pv : List String)
    (rest : List InfoDict) (m : ℤ) (analyse : ℤ → List InfoDict)
    (hresp : analyse (clampMultipv m) = { score := some s, depth := d, pv := pv } :: rest) :
    ∃ r, evaluateWith true true w m analyse = .ok r ∧
      r.cp = (if w then s.cpOf else -(s.cpOf)) ∧
      r.mate = (if w then s.mateOf else -(s.mateOf)) := by
  unfold evaluateWith
  simp only [Bool.true_eq_false, if_false]
  rw [hresp]
  cases s with
  | cp v =>
    cases w with
    | false => exact ⟨.mk (-v) 0 d pv (rest.filterMap (parse_info false)), rfl, rfl, rfl⟩
    | true => exact ⟨.mk v 0 d pv (rest.filterMap (parse_info true)), rfl, rfl, rfl⟩
  | mate v =>
    cases w with
    | false => exact ⟨.mk 0 (-v) d pv (rest.filterMap (parse_info false)), rfl, rfl, rfl⟩
    | true => exact ⟨.mk 0 v d pv (rest.filterMap (parse_info true)), rfl, rfl, rfl⟩

theorem evaluate_side_to_move_perspective_witness :
    ∃ r, evaluateWith true true false 1
        (fun _ => [{ score := some (WScore.cp 30), depth := 15, pv := [] }]) = .ok r ∧
      r.cp = (if false then (WScore.cp 30).cpOf else -((WScore.cp 30).cpOf)) ∧
      r.mate = (if false then (WScore.cp 30).mateOf else -((WScore.cp 30).mateOf)) :=
  evaluate_side_to_move_perspective false (WScore.cp 30) 15 [] [] 1
    (fun _ => [{ score := some (WScore.cp 30), depth := 15, pv := [] }]) rfl

theorem parse_info_some_of_score (w : Bool) (i : InfoDict) (s : WScore)
    (hs : i.score = some s) : ∃ r, parse_info w i = some r := by
  unfold parse_info
  rw [hs]
  dsimp only
  cases hif : (if w = true then s else s.negS) with
  | cp v => exact ⟨_, rfl⟩
  | mate v => exact ⟨_, rfl⟩

theorem withAlts_alternatives (r : EvaluationResult) (alts : List EvaluationResult) :
    (r.withAlts alts).alternatives = alts := by
  cases r
  rfl

/-- Claim C8: `multipv` is clamped into `[1, 10]` before being passed to the
engine: a request of 100 asks for 10 variations so at most 10 results come
back (primary plus at most 9 alternatives, given the engine honours the
request), and a request of 0 or −1 asks for exactly one variation so
exactly 1 result with no alternatives comes back. -/
theorem evaluate_multipv_clamp (w : Bool) (analyse : ℤ → List InfoDict) (i : InfoDict)
    (s : WScore) (m0 : ℤ)
    (hlen : (analyse 10).length ≤ 10)
    (hm0 : m0 = 0 ∨ m0 = -1)
    (hone : analyse 1 = [i]) (hs : i.score = some s) :
    clampMultipv 100 = 10 ∧ clampMultipv m0 = 1 ∧
    resultCount (evaluateWith true true w 100 analyse) ≤ 10 ∧
    resultCount (evaluateWith true true w m0 analyse) = 1 ∧
    ∃ r, evaluateWith true true w m0 analyse = .ok r ∧ r.alternatives = [] := by
  have hc100 : clampMultipv 100 = 10 := by decide
  have hc0 : clampMultipv m0 = 1 := by rcases hm0 with h | h <;> subst h <;> decide
  obtain ⟨r0, hr0⟩ := parse_info_some_of_score w i s hs
  have hfm : (analyse (clampMultipv m0)).filterMap (parse_info w) = [r0] := by
    rw [hc0, hone]
    simp [List.filterMap_cons, hr0]
  refine ⟨hc100, hc0, ?_, ?_, ?_⟩
  · rw [resultCount_eq true true w 100 analyse rfl rfl, hc100]
    exact le_trans (List.length_filterMap_le _ _) hlen
  · rw [resultCount_eq true true w m0 analyse rfl rfl, hfm]
    rfl
  · refine ⟨r0.withAlts [], ?_, withAlts_alternatives r0 []⟩
    unfold evaluateWith
    simp only [Bool.true_eq_false, if_false]
    rw [hfm]

theorem evaluate_multipv_clamp_witness :
    clampMultipv 100 = 10 ∧ clampMultipv 0 = 1 ∧
    resultCount (evaluateWith true true true 100
      (fun _ => [{ score := some (WScore.cp 25) }])) ≤ 10 ∧
    resultCount (evaluateWith true true true 0
      (fun _ => [{ score := some (WScore.cp 25) }])) = 1 ∧
    ∃ r, evaluateWith true true true 0
        (fun _ => [{ score := some (WScore.cp 25) }]) = .ok r ∧ r.alternatives = [] :=
  evaluate_multipv_clamp true (fun _ => [{ score := some (WScore.cp 25) }])
    { score := some (WScore.cp 25) } (WScore.cp 25) 0
    (by decide) (Or.inl rfl) rfl rfl

/-- Claim C10: every successful `evaluate` returns the first parsed
variation as primary, carrying the remaining parsed variations as its
`alternatives` in engine-reported order, and each alternative itself has an
empty `alternatives` list. -/
theorem evaluate_primary_alternatives (started validFen w : Bool) (m : ℤ)
    (analyse : ℤ → List InfoDict) (r : EvaluationResult)
    (h : evaluateWith started validFen w m analyse = .ok r) :
    ∃ h0 t, (analyse (clampMultipv m)).filterMap (parse_info w) = h0 :: t ∧
      r = h0.withAlts t ∧ ∀ a ∈ t, a.alternatives = [] := by
  unfold evaluateWith at h
  by_cases hs : started = false
  · rw [if_pos hs] at h
    exact absurd h (by simp)
  · rw [if_neg hs] at h
    by_cases hv : validFen = false
    · rw [if_pos hv] at h
      exact absurd h (by simp)
    · rw [if_neg hv] at h
      cases hfm : (analyse (clampMultipv m)).filterMap (parse_info w) with
      | nil =>
        rw [hfm] at h
        exact absurd h (by simp)
      | cons h0 t =>
        rw [hfm] at h
        refine ⟨h0, t, rfl, ?_, ?_⟩
        · injection h with h
          exact h.symm
        · intro a ha
          have hmem : a ∈ (analyse (clampMultipv m)).filterMap (parse_info w) := by
            rw [hfm]
            exact List.mem_cons_of_mem _ ha
          obtain ⟨i, _, hpi⟩ := List.mem_filterMap.mp hmem
          exact parse_info_alts_nil w i a hpi

theorem evaluate_primary_alternatives_witness :
    ∃ h0 t,
      ((fun _ => [{ score := some (WScore.cp 30), depth := 16, pv := [] },
        { score := some (WScore.cp 20), depth := 16, pv := [] }] :
          ℤ → List InfoDict) (clampMultipv 2)).filterMap (parse_info true) = h0 :: t ∧
      EvaluationResult.mk 30 0 16 [] [.mk 20 0 16 [] []] = h0.withAlts t ∧
      ∀ a ∈ t, a.alternatives = [] :=
  evaluate_primary_alternatives true true true 2
    (fun _ => [{ score := some (WScore.cp 30), depth := 16, pv := [] },
      { score := some (WScore.cp 20), depth := 16, pv := [] }])
    (.mk 30 0 16 [] [.mk 20 0 16 [] []]) rfl

/-- Claim C1 fails as stated: on a started, non-shutting-down pool holding
the single tracked engine `⟨0, none⟩` (no process handle, the only state in
which the reset can fail — see `newGameErr`), `release` does *not* remove
the engine from the tracked set.  The raised engine-module `EngineError`
is not matched by the `except EngineError` clause (which catches the
`common` class), so it propagates out of `release` and the pool state is
left unchanged: the engine stays tracked and is not requeued. -/
theorem pool_release_reset_failure_counterexample :
    pool_release ⟨[⟨0, none⟩], [], true, false, 1, 1, 3⟩ ⟨0, none⟩ false
        (fun _ => false) true =
      (some .localEngineError, ⟨[⟨0, none⟩], [], true, false, 1, 1, 3⟩) ∧
    (⟨0, none⟩ : SFEngine) ∈
      (pool_release ⟨[⟨0, none⟩], [], true, false, 1, 1, 3⟩ ⟨0, none⟩ false
        (fun _ => false) true).2.engines := by
  constructor
  · rfl
  · rw [show (pool_release ⟨[⟨0, none⟩], [], true, false, 1, 1, 3⟩ ⟨0, none⟩ false
        (fun _ => false) true).2.engines = [⟨0, none⟩] from rfl]
    exact List.mem_singleton.mpr rfl

/-- Claim C1 (amended): when the per-session reset of the released engine
fails — which happens exactly when the engine holds no process handle —
the engine-module `EngineError` raised by `new_game` escapes `release`
uncaught (the handler catches the unrelated `common` `EngineError`), the
engine is *not* removed from the tracked set and is not requeued; the
restart-then-drop handler body is dead code. -/
theorem pool_release_reset_failure_propagates (p : PoolState) (e : SFEngine)
    (protocolFails : Bool) (attempts : ℕ → Bool) (spawnOk : Bool)
    (hsd : p.shutdown = false) (hnone : e.handle = none) :
    pool_release p e protocolFails attempts spawnOk = (some .localEngineError, p) := by
  unfold pool_release
  rw [hsd]
  simp only [Bool.false_eq_true, if_false]
  have hng : newGameErr e protocolFails = some .localEngineError := by
    unfold newGameErr
    rw [if_pos hnone]
  rw [hng]
  rfl

theorem pool_release_reset_failure_propagates_witness :
    pool_release ⟨[⟨0, none⟩], [], true, false, 1, 1, 3⟩ ⟨0, none⟩ false
        (fun _ => false) true =
      (some .localEngineError, ⟨[⟨0, none⟩], [], true, false, 1, 1, 3⟩) :=
  pool_release_reset_failure_propagates ⟨[⟨0, none⟩], [], true, false, 1, 1, 3⟩
    ⟨0, none⟩ false (fun _ => false) true rfl rfl

/-- Claim C9: `new_game` raises an error exactly when the engine holds no
process handle, and the `ucinewgame`/`ping` exchange failing on a started
engine is swallowed internally — releasing an engine that holds a process
handle always requeues it unchanged, with no exception, whether or not the
protocol exchange failed; hence a mere protocol failure can never steer
`release` into its reset-failure branch. -/
theorem new_game_raises_iff_no_handle (p : PoolState) (e : SFEngine) (protocolFails : Bool)
    (attempts : ℕ → Bool) (spawnOk : Bool)
    (hsd : p.shutdown = false) (hh : e.handle ≠ none) :
    (∀ (e2 : SFEngine) (pf : Bool), (newGameErr e2 pf).isSome ↔ e2.handle = none) ∧
    pool_release p e protocolFails attempts spawnOk =
      (none, { p with avail := p.avail ++ [e] }) := by
  constructor
  · intro e2 pf
    unfold newGameErr
    by_cases h2 : e2.handle = none
    · simp [h2]
    · cases pf <;> simp [h2]
  · unfold pool_release
    rw [hsd]
    simp only [Bool.false_eq_true, if_false]
    have hng : newGameErr e protocolFails = none := by
      unfold newGameErr
      rw [if_neg hh]
      cases protocolFails <;> rfl
    rw [hng]

theorem new_game_raises_iff_no_handle_witness :
    (∀ (e2 : SFEngine) (pf : Bool), (newGameErr e2 pf).isSome ↔ e2.handle = none) ∧
    pool_release ⟨[⟨0, some true⟩], [], true, false, 1, 1, 3⟩ ⟨0, some true⟩ true
        (fun _ => false) true =
      (none, { (⟨[⟨0, some true⟩], [], true, false, 1, 1, 3⟩ : PoolState) with
        avail := [] ++ [⟨0, some true⟩] }) :=
  new_game_raises_iff_no_handle ⟨[⟨0, some true⟩], [], true, false, 1, 1, 3⟩
    ⟨0, some true⟩ true (fun _ => false) true rfl (by simp)

theorem updateHandle_any_id (l : List SFEngine) (i : ℕ) (h : Option Bool) :
    ((updateHandle l i h).any (fun x => x.id = i)) = (l.any (fun x => x.id = i)) := by
  unfold updateHandle
  induction l with
  | nil => rfl
  | cons a t ih =>
    simp only [List.map_cons, List.any_cons, ih]
    by_cases ha : a.id = i
    · simp [ha]
    · simp [ha]

theorem mem_replaceById (l : List SFEngine) (i : ℕ) (e2 : SFEngine)
    (h : l.any (fun x => x.id = i) = true) : e2 ∈ replaceById l i e2 := by
  unfold replaceById
  induction l with
  | nil => exact absurd h (by simp)
  | cons a t ih =>
    by_cases ha : a.id = i
    · simp [ha]
    · simp [List.any_cons, ha] at h
      simp only [List.map_cons, if_neg ha]
      exact List.mem_cons_of_mem _ (ih (List.any_eq_true.mpr
        (by obtain ⟨x, hx, hxi⟩ := h; exact ⟨x, hx, by simp [hxi]⟩)))

theorem replaceById_length (l : List SFEngine) (i : ℕ) (e2 : SFEngine) :
    (replaceById l i e2).length = l.length := List.length_map l _

theorem updateHandle_length (l : List SFEngine) (i : ℕ) (h : Option Bool) :
    (updateHandle l i h).length = l.length := List.length_map l _

/-- Claim C2: acquiring a dead engine from a started pool first retries
`engine.start()` on the same instance up to `max_retries` times; when every
retry fails and the fresh spawn succeeds, a brand-new engine is created
synchronously, swapped into the tracked list in place of the dead one —
keeping the tracked total at N — and returned live to the caller with no
exception. -/
theorem pool_acquire_dead_swap (p : PoolState) (e : SFEngine) (rest : List SFEngine)
    (attempts : ℕ → Bool)
    (hstart : p.started = true) (hsd : p.shutdown = false)
    (havail : p.avail = e :: rest)
    (hdead : e.isAlive = false)
    (htracked : p.engines.any (fun x => x.id = e.id) = true)
    (hfail : ∀ j < p.maxRetries, attempts j = false) :
    ∃ e2 p2, pool_acquire p attempts true = .ok (e2, p2) ∧
      e2.isAlive = true ∧ e2.id = p.nextId ∧
      p2.engines.length = p.engines.length ∧
      e2 ∈ p2.engines ∧ p2.avail = rest := by
  have hany : (List.range p.maxRetries).any attempts = false := by
    rw [List.any_eq_false]
    intro j hj
    rw [hfail j (List.mem_range.mp hj)]
    simp
  unfold pool_acquire
  rw [hsd, hstart]
  simp only [Bool.false_eq_true, if_false, not_true, ite_false]
  rw [havail]
  simp only [hdead, Bool.false_eq_true, if_false]
  unfold restart_engine
  rw [hany]
  simp only [Bool.false_eq_true, if_false, if_true]
  have htr2 : ((updateHandle p.engines e.id none).any (fun x => x.id = e.id)) = true := by
    rw [updateHandle_any_id]
    exact htracked
  rw [htr2]
  simp only [if_true]
  refine ⟨⟨p.nextId, some true⟩, _, rfl, rfl, rfl, ?_, ?_, rfl⟩
  · rw [replaceById_length, updateHandle_length]
  · exact mem_replaceById _ _ _ htr2

theorem pool_acquire_dead_swap_witness :
    ∃ e2 p2,
      pool_acquire ⟨[⟨0, some false⟩], [⟨0, some false⟩], true, false, 1, 1, 3⟩
        (fun _ => false) true = .ok (e2, p2) ∧
      e2.isAlive = true ∧
      e2.id = (⟨[⟨0, some false⟩], [⟨0, some false⟩], true, false, 1, 1, 3⟩ : PoolState).nextId ∧
      p2.engines.length =
        (⟨[⟨0, some false⟩], [⟨0, some false⟩], true, false, 1, 1, 3⟩ : PoolState).engines.length ∧
      e2 ∈ p2.engines ∧ p2.avail = [] :=
  pool_acquire_dead_swap ⟨[⟨0, some false⟩], [⟨0, some false⟩], true, false, 1, 1, 3⟩
    ⟨0, some false⟩ [] (fun _ => false) rfl rfl rfl rfl (by decide)
    (fun j _ => rfl)

theorem start_loop_fail (k : ℕ) : ∀ (i n : ℕ) (q : PoolState) (spawn : ℕ → Bool),
    k < n → spawn (i + k) = false → (∀ j < k, spawn (i + j) = true) →
    ∃ p2 news, start_loop i n q spawn = (some .commonEngineError, p2, q.engines ++ news) ∧
      p2.engines = [] ∧ p2.avail = [] ∧ p2.started = q.started ∧
      p2.shutdown = q.shutdown ∧ news.length = k := by
  induction k with
  | zero =>
    intro i n q spawn hk hfail _
    cases n with
    | zero => omega
    | succ n2 =>
      unfold start_loop
      rw [show spawn i = false from by simpa using hfail]
      exact ⟨{ q with engines := [], avail := [] }, [], by simp [cleanup_engines],
        rfl, rfl, rfl, rfl, rfl⟩
  | succ k2 ih =>
    intro i n q spawn hk hfail hok
    cases n with
    | zero => omega
    | succ n2 =>
      unfold start_loop
      rw [show spawn i = true from by simpa using hok 0 (Nat.succ_pos k2)]
      simp only [if_true]
      obtain ⟨p2, news, heq, he, ha, hs, hsh, hlen⟩ :=
        ih (i + 1) n2
          { q with
              engines := q.engines ++ [⟨q.nextId, some true⟩]
              avail := q.avail ++ [⟨q.nextId, some true⟩]
              nextId := q.nextId + 1 }
          spawn (by omega)
          (by rw [show i + 1 + k2 = i + (k2 + 1) from by omega]; exact hfail)
          (fun j hj => by
            rw [show i + 1 + j = i + (j + 1) from by omega]
            exact hok (j + 1) (by omega))
      refine ⟨p2, ⟨q.nextId, some true⟩ :: news, ?_, he, ha, hs, hsh, by simp [hlen]⟩
      rw [heq]
      simp

/-- Claim C7: starting a fresh pool of size N where the k-th spawn fails
(after k successful ones) stops every engine started so far, leaves the
tracked list and the availability queue empty, leaves the pool not-started,
and raises the `common` `EngineError` (`"Failed to initialize pool"`) — a
partly populated pool is never left running. -/
theorem pool_start_failure_cleanup (size maxR nid k : ℕ) (spawn : ℕ → Bool)
    (hk : k < size) (hfail : spawn k = false) (hok : ∀ j < k, spawn j = true) :
    ∃ p2 stopped,
      pool_start ⟨[], [], false, false, nid, size, maxR⟩ spawn =
        (some .commonEngineError, p2, stopped) ∧
      p2.engines = [] ∧ p2.avail = [] ∧ p2.started = false ∧ stopped.length = k := by
  obtain ⟨p2, news, heq, he, ha, hs, _, hlen⟩ :=
    start_loop_fail k 0 size ⟨[], [], false, false, nid, size, maxR⟩ spawn hk
      (by simpa using hfail) (fun j hj => by simpa using hok j hj)
  refine ⟨p2, news, ?_, he, ha, hs, hlen⟩
  unfold pool_start
  simp only [Bool.false_eq_true, if_false]
  rw [heq]
  simp

theorem pool_start_failure_cleanup_witness :
    ∃ p2 stopped,
      pool_start ⟨[], [], false, false, 0, 3, 3⟩ (fun j => j == 0) =
        (some .commonEngineError, p2, stopped) ∧
      p2.engines = [] ∧ p2.avail = [] ∧ p2.started = false ∧ stopped.length = 1 :=
  pool_start_failure_cleanup 3 3 0 1 (fun j => j == 0) (by decide) rfl
    (fun j hj => by
      have h0 : j = 0 := Nat.lt_one_iff.mp hj
      subst h0
      rfl)
